import Mathlib

/-!
# Verification of the lighthouse API client library

A shallow embedding, in Lean 4, of the parts of the `nwidger/lighthouse`
repository (a Go client library for the Lighthouse issue tracker plus an
export CLI and a GitLab migration CLI) needed to settle the frozen claims
about its specification.

Modelling conventions, used throughout:

* Go strings are modelled as sequences of characters (`String` / `List Char`);
  Go indexes bytes, but every input discussed by the claims is ASCII, where
  the two coincide.
* Go `int` is modelled as `Int` (the programs run on 64-bit targets and no
  claim depends on overflow), `*time.Time` as `Option Int` (an instant,
  `time.Time.Equal` being instant equality), `[]byte` as `String`.
* Pointers to struct values that the code never checks for `nil` are
  modelled as plain values; pointer fields whose nilness the claims are
  about (`*time.Time` creation timestamps) keep their `Option`.
* Fallible Go functions returning `(T, error)` are modelled with
  `Except GoError T` / `Option GoError`; a Go loop without a termination
  guarantee (pagination) takes explicit fuel and returns `none` when the
  fuel is exhausted (i.e. when the Go loop would still be running).
* Per-rune Go text helpers (`unicode.IsSpace`, `unicode.ToLower`) are
  modelled on the Latin/ASCII fragment the claims exercise.
-/

namespace Lighthouse

/-! ## Go character and string helpers -/

/-- `unicode.IsSpace` (Go), restricted to the Latin-1 range plus the Unicode
white-space code points: used by `strings.TrimSpace`. -/
def isGoSpace (c : Char) : Bool :=
  c == ' ' || c == '\t' || c == '\n' || c == '\x0b' || c == '\x0c' || c == '\r' ||
  c.toNat == 0x85 || c.toNat == 0xA0 || c.toNat == 0x1680 ||
  (0x2000 ≤ c.toNat && c.toNat ≤ 0x200A) ||
  c.toNat == 0x2028 || c.toNat == 0x2029 || c.toNat == 0x202F ||
  c.toNat == 0x205F || c.toNat == 0x3000

/-- `strings.TrimSpace` (Go) on a character sequence: drop leading and
trailing white space. -/
def goTrimSpaceList (l : List Char) : List Char :=
  ((l.dropWhile isGoSpace).reverse.dropWhile isGoSpace).reverse

/-- `strings.TrimSpace` (Go). -/
def goTrimSpace (s : String) : String :=
  String.mk (goTrimSpaceList s.data)

/-- `unicode.ToLower` (Go), ASCII fragment (per-rune lowering). -/
def goToLower (c : Char) : Char :=
  if 'A' ≤ c && c ≤ 'Z' then Char.ofNat (c.toNat + 32) else c

/-- `strings.ToLower` (Go): per-rune lowering. -/
def goToLowerStr (s : String) : String :=
  String.mk (s.data.map goToLower)

/-- `strings.HasPrefix(s, "#")` (Go). -/
def goHasPrefixHash (s : String) : Bool :=
  match s.data with
  | [] => false
  | c :: _ => c == '#'

/-- `strings.Split(text, "\n")` (Go): split into the segments between
newlines; always at least one (possibly empty) segment. -/
def splitOnNewline : List Char → List (List Char)
  | [] => [[]]
  | c :: rest =>
    if c = '\n' then [] :: splitOnNewline rest
    else
      match splitOnNewline rest with
      | [] => [[c]]
      | h :: t => (c :: h) :: t

/-! ## Data model (`projects`, `tickets`, `bins`, `milestones`, `messages`
packages): flat records mirroring the remote JSON schema. -/

/-- `projects.Todos`. -/
structure Todos where
  Projects : Bool
  Tickets : Bool
  Milestones : Bool
deriving Repr, DecidableEq, Inhabited

/-- `projects.User`. -/
structure User where
  ID : Int
  Job : String
  Name : String
  Website : String
  AvatarURL : String
deriving Repr, DecidableEq, Inhabited

/-- `projects.Membership` (the `User` pointer field is modelled as a plain
value; decoded memberships carry one). -/
structure Membership where
  ID : Int
  UserID : Int
  User : User
  Account : String
deriving Repr, DecidableEq, Inhabited

/-- `projects.Project` (`StatesList` is a comma-separated string decoded to
a list of strings). -/
structure Project where
  Archived : Bool
  ClosedStates : String
  CreatedAt : Option Int
  DefaultAssignedUserID : Int
  DefaultMilestoneID : Int
  DefaultTicketText : String
  Description : String
  DescriptionHTML : String
  EnablePoints : Bool
  Hidden : Bool
  ID : Int
  License : String
  Name : String
  OpenStates : String
  OpenTicketsCount : Int
  OssReadonly : Bool
  Permalink : String
  PointsScale : String
  Public : Bool
  SendChangesetsToEvents : Bool
  TodosCompleted : Todos
  UpdatedAt : String
  OpenStatesList : List String
  ClosedStatesList : List String
deriving Repr, DecidableEq, Inhabited

/-- `tickets.Tag`. -/
structure Tag where
  ID : Int
  Name : String
deriving Repr, DecidableEq, Inhabited

/-- `tickets.TagResponse`: the singleton envelope around one tag. -/
structure TagResponse where
  tag : Tag
deriving Repr, DecidableEq, Inhabited

/-- `tickets.Attachment`. -/
structure Attachment where
  AttachmentFileProcessing : Bool
  Code : String
  ContentType : String
  CreatedAt : Option Int
  Filename : String
  Height : Int
  ID : Int
  ProjectID : Int
  Size : Int
  UploaderID : Int
  Width : Int
  URL : String
deriving Repr, DecidableEq, Inhabited

/-- `tickets.AttachmentResponse`: the singleton envelope around one
attachment. -/
structure AttachmentResponse where
  attachment : Attachment
deriving Repr, DecidableEq, Inhabited

/-- `tickets.AlphabeticalTag` (marshals as a two-element `[tag, count]`
array). -/
structure AlphabeticalTag where
  Tag : String
  Count : Int
deriving Repr, DecidableEq, Inhabited

/-- `tickets.DiffableAttributes`. -/
structure DiffableAttributes where
  State : String
  Title : String
  AssignedUser : Int
  Milestone : Int
  Tag : String
deriving Repr, DecidableEq, Inhabited

/-- `tickets.TicketVersion` (`RawData []byte` modelled as a `String` of
bytes). -/
structure TicketVersion where
  AssignedUserID : Int
  AttachmentsCount : Int
  Body : String
  BodyHTML : String
  Closed : Bool
  CreatedAt : Option Int
  CreatorID : Int
  DiffableAttributes : Option DiffableAttributes
  Importance : Int
  MilestoneID : Int
  MilestoneOrder : Int
  Number : Int
  Permalink : String
  ProjectID : Int
  RawData : String
  Spam : Bool
  State : String
  Tag : String
  Title : String
  UpdatedAt : Option Int
  UserID : Int
  Version : Int
deriving Repr, DecidableEq, Inhabited

/-- `tickets.Ticket` (`RawData []byte` modelled as a `String` of bytes). -/
structure Ticket where
  AssignedUserID : Int
  AttachmentsCount : Int
  Body : String
  BodyHTML : String
  Closed : Bool
  CreatedAt : Option Int
  CreatorID : Int
  Importance : Int
  MilestoneDueOn : Option Int
  MilestoneID : Int
  MilestoneOrder : Int
  Number : Int
  Permalink : String
  ProjectID : Int
  RawData : String
  Spam : Bool
  State : String
  Tag : String
  Title : String
  UpdatedAt : Option Int
  UserID : Int
  Version : Int
  WatchersIDs : List Int
  UserName : String
  CreatorName : String
  AssignedUserName : String
  URL : String
  MilestoneTitle : String
  Priority : Int
  ImportanceName : String
  OriginalBody : String
  LatestBody : String
  OriginalBodyHTML : String
  StateColor : String
  Tags : List TagResponse
  AlphabeticalTags : List AlphabeticalTag
  Versions : List TicketVersion
  Attachments : List AttachmentResponse
deriving Repr, DecidableEq, Inhabited

/-- `bins.Bin`. -/
structure Bin where
  Default : Bool
  ID : Int
  Name : String
  Position : Int
  ProjectID : Int
  Query : String
  Shared : Bool
  TicketsCount : Int
  UpdatedAt : Option Int
  UserID : Int
  Global : Bool
deriving Repr, DecidableEq, Inhabited

/-- `milestones.Milestone`. -/
structure Milestone where
  AttachmentsCount : Int
  CompletedAt : Option Int
  CreatedAt : Option Int
  DueOn : Option Int
  Goals : String
  GoalsHTML : String
  ID : Int
  MaxPoints : Int
  OpenTicketsCount : Int
  Permalink : String
  PointsClosed : Int
  PointsOpen : Int
  Position : Int
  ProjectID : Int
  TicketsCount : Int
  Title : String
  UpdatedAt : Option Int
  URL : String
  UserName : String
deriving Repr, DecidableEq, Inhabited

/-- `messages.Comment`. -/
structure Comment where
  AllAttachmentsCount : Int
  AttachmentsCount : Int
  Body : String
  BodyHTML : String
  CommentsCount : Int
  CreatedAt : Option Int
  ID : Int
  Integer : Int
  MilestoneID : Int
  ParentID : Int
  Permalink : String
  ProjectID : Int
  Title : String
  Token : String
  UpdatedAt : Option Int
  UserID : Int
  UserName : String
  URL : String
deriving Repr, DecidableEq, Inhabited

/-- `messages.Message`. -/
structure Message where
  AllAttachmentsCount : Int
  AttachmentsCount : Int
  Body : String
  BodyHTML : String
  CommentsCount : Int
  CreatedAt : Option Int
  ID : Int
  Integer : Int
  MilestoneID : Int
  ParentID : Int
  Permalink : String
  ProjectID : Int
  Title : String
  Token : String
  UpdatedAt : Option Int
  UserID : Int
  UserName : String
  URL : String
  Comments : List Comment
deriving Repr, DecidableEq, Inhabited

/-- The error values the modelled operations can produce.  Each constructor
records the data interpolated into the corresponding Go error message
(`fmt.Errorf("no such bin %q", name)`, `"invalid ticket number %q"`, the
API status-mismatch error of `lighthouse.CheckResponse`). -/
inductive GoError where
  | noSuchBin (name : String)
  | noSuchProject (name : String)
  | noSuchMessage (title : String)
  | noSuchMilestone (title : String)
  | invalidTicketNumber (numberStr : String)
  | apiError (status : Nat)
deriving Repr, DecidableEq

/-! ## Pagination (`tickets.Service.ListAll`, `milestones.Service.ListAll`)

`ListAll` copies the caller's options into `realOpts`, then loops
`for realOpts.Page = 1; ; realOpts.Page++`, calling `List(&realOpts)` and
appending, and breaks at the first page whose returned collection is empty.
The remote `List` call is abstracted as a function from the options to the
returned collection; the unbounded Go loop takes explicit fuel and yields
`none` when the fuel runs out before an empty page is seen (i.e. when the
Go loop would still be running). -/

/-- `tickets.ListOptions` (query string, per-page limit, page number). -/
structure TicketListOptions where
  Query : String
  Limit : Nat
  Page : Nat
deriving Repr, DecidableEq, Inhabited

/-- `milestones.ListOptions` (page number only). -/
structure MilestoneListOptions where
  Page : Nat
deriving Repr, DecidableEq, Inhabited

/-- The page-accumulation loop shared by both `ListAll` implementations:
call `list` at `page`, `page+1`, … until the first empty page, concatenating
the pages seen before it. -/
def paginate (list : Nat → List α) (page : Nat) : Nat → Option (List α)
  | 0 => none
  | fuel + 1 =>
    let p := list page
    if p.isEmpty then some []
    else
      match paginate list (page + 1) fuel with
      | none => none
      | some rest => some (p ++ rest)

/-- `tickets.Service.ListAll`: each iteration calls `List` with `realOpts`,
whose `Page` field is overwritten with the loop counter and whose other
fields are copied from the caller's options. -/
def ticketsListAll (list : TicketListOptions → List α) (opts : TicketListOptions)
    (fuel : Nat) : Option (List α) :=
  paginate (fun page => list { opts with Page := page }) 1 fuel

/-- `milestones.Service.ListAll`. -/
def milestonesListAll (list : MilestoneListOptions → List α)
    (opts : MilestoneListOptions) (fuel : Nat) : Option (List α) :=
  paginate (fun page => list { opts with Page := page }) 1 fuel

/-! ## Collection responses (`ticketsResponse.tickets`, `binsResponse.bins`)

A collection payload decodes to an array of singleton-wrapped objects
(`{"tickets": [{"ticket": {...}}, ...]}`); the `tickets()` / `bins()`
helpers flatten it by unwrapping each element in order. -/

/-- `tickets.ticketResponse`: the `{"ticket": {...}}` envelope. -/
structure TicketResponse where
  ticket : Ticket
deriving Repr, DecidableEq, Inhabited

/-- `tickets.ticketsResponse`: the `{"tickets": [...]}` collection payload. -/
structure TicketsResponse where
  Tickets : List TicketResponse
deriving Repr, DecidableEq, Inhabited

/-- `ticketsResponse.tickets()`: unwrap each element of the collection, in
order. -/
def ticketsResponseTickets (msr : TicketsResponse) : List Ticket :=
  msr.Tickets.map (fun m => m.ticket)

/-- `bins.binResponse`: the `{"ticket_bin": {...}}` envelope. -/
structure BinResponse where
  bin : Bin
deriving Repr, DecidableEq, Inhabited

/-- `bins.binsResponse`: the `{"ticket_bins": [...]}` collection payload. -/
structure BinsResponse where
  Bins : List BinResponse
deriving Repr, DecidableEq, Inhabited

/-- `binsResponse.bins()`: unwrap each element of the collection, in order. -/
def binsResponseBins (bsr : BinsResponse) : List Bin :=
  bsr.Bins.map (fun b => b.bin)

/-! ## Name lookups (`GetByName` / `GetByTitle` / `DeleteByName`)

Each service's by-name lookup lists the collection, lowercases the argument
once, and linearly scans for the first entity whose lowercased name/title
equals it, failing with a `no such … %q` error otherwise.  The `List` /
`ListAll` server round trip is abstracted by passing the listed entities. -/

/-- `bins.Service.GetByName`, given the bins returned by `List`. -/
def binsGetByName (bs : List Bin) (name : String) : Except GoError Bin :=
  let lower := goToLowerStr name
  match bs.find? (fun b => goToLowerStr b.Name == lower) with
  | some b => Except.ok b
  | none => Except.error (GoError.noSuchBin name)

/-- `bins.Service.DeleteByName`: resolve via `GetByName`, then delete by the
resolved entity's ID (the returned value is the ID passed to
`DeleteByID`). -/
def binsDeleteByName (bs : List Bin) (name : String) : Except GoError Int :=
  match binsGetByName bs name with
  | Except.error e => Except.error e
  | Except.ok b => Except.ok b.ID

/-- `projects.Service.GetByName`, given the projects returned by `List`. -/
def projectsGetByName (ps : List Project) (name : String) : Except GoError Project :=
  let lower := goToLowerStr name
  match ps.find? (fun p => lower == goToLowerStr p.Name) with
  | some p => Except.ok p
  | none => Except.error (GoError.noSuchProject name)

/-- `projects.Service.DeleteByName`. -/
def projectsDeleteByName (ps : List Project) (name : String) : Except GoError Int :=
  match projectsGetByName ps name with
  | Except.error e => Except.error e
  | Except.ok p => Except.ok p.ID

/-- `messages.Service.GetByTitle`, given the messages returned by `List`. -/
def messagesGetByTitle (ms : List Message) (title : String) : Except GoError Message :=
  let lower := goToLowerStr title
  match ms.find? (fun m => goToLowerStr m.Title == lower) with
  | some m => Except.ok m
  | none => Except.error (GoError.noSuchMessage title)

/-- `messages.Service.DeleteByTitle`. -/
def messagesDeleteByTitle (ms : List Message) (title : String) : Except GoError Int :=
  match messagesGetByTitle ms title with
  | Except.error e => Except.error e
  | Except.ok m => Except.ok m.ID

/-- `milestones.Service.GetByTitle`, given the milestones returned by
`ListAll`. -/
def milestonesGetByTitle (ms : List Milestone) (title : String) : Except GoError Milestone :=
  let lower := goToLowerStr title
  match ms.find? (fun m => goToLowerStr m.Title == lower) with
  | some m => Except.ok m
  | none => Except.error (GoError.noSuchMilestone title)

/-- `milestones.Service.DeleteByTitle`. -/
def milestonesDeleteByTitle (ms : List Milestone) (title : String) : Except GoError Int :=
  match milestonesGetByTitle ms title with
  | Except.error e => Except.error e
  | Except.ok m => Except.ok m.ID

/-! ## Ticket numbers (`tickets.Number`, `tickets.Service.Get` / `Delete`) -/

/-- Decimal digit value for base-10 parsing. -/
def digitVal (c : Char) : Option Nat :=
  if '0' ≤ c && c ≤ '9' then some (c.toNat - '0'.toNat) else none

/-- Accumulate decimal digits; fails on the first non-digit. -/
def parseDigitsAux : List Char → Nat → Option Nat
  | [], acc => some acc
  | c :: rest, acc =>
    match digitVal c with
    | none => none
    | some d => parseDigitsAux rest (acc * 10 + d)

/-- `strconv.ParseInt(s, 10, 64)` (Go): an optional sign, then one or more
decimal digits, with the result required to fit in a signed 64-bit
integer; everything else (including range overflow, on which Go also
reports an error) yields `none`. -/
def goParseIntBase10Int64 (s : String) : Option Int :=
  match s.data with
  | [] => none
  | c :: rest =>
    let neg := c = '-'
    let digits := if c = '-' ∨ c = '+' then rest else c :: rest
    if digits.isEmpty then none
    else
      match parseDigitsAux digits 0 with
      | none => none
      | some n =>
        if neg then
          if (n : Int) ≤ 9223372036854775808 then some (-(n : Int)) else none
        else
          if (n : Int) ≤ 9223372036854775807 then some (n : Int) else none

/-- `tickets.Number`: strip at most one leading `#` (Go slices one byte:
`str[1:]`), parse the remainder as a base-10 64-bit integer, and on failure
return 0 with `fmt.Errorf("invalid ticket number %q", numberStr)`, quoting
the original argument. -/
def Number (numberStr : String) : Except GoError Int :=
  let str :=
    if goHasPrefixHash numberStr then String.mk (numberStr.data.drop 1)
    else numberStr
  match goParseIntBase10Int64 str with
  | some n => Except.ok n
  | none => Except.error (GoError.invalidTicketNumber numberStr)

/-- `tickets.Service.Get`: parse the number string with `Number`, then fetch
by number (the `GetByNumber` round trip is abstracted as `fetch`); there is
no fallback lookup of any kind. -/
def ticketsGet (fetch : Int → Except GoError Ticket) (numberStr : String) :
    Except GoError Ticket :=
  match Number numberStr with
  | Except.error e => Except.error e
  | Except.ok n => fetch n

/-- `tickets.Service.Delete`: parse with `Number`, then delete by number
(the `DeleteByNumber` round trip is abstracted as `deleteByNumber`). -/
def ticketsDelete (deleteByNumber : Int → Except GoError Unit) (numberStr : String) :
    Except GoError Unit :=
  match Number numberStr with
  | Except.error e => Except.error e
  | Except.ok n => deleteByNumber n

/-! ## Migration tool: per-version note creation (`lhTicketVersionToCreateIssueNote`)
and the per-ticket version loop of `main` -/

/-- `gitlab.ProjectFile` (from the GitLab client library): the record
returned by an attachment upload; `Markdown` is the snippet embedded into
note bodies. -/
structure GitlabProjectFile where
  Alt : String
  URL : String
  Markdown : String
deriving Repr, DecidableEq, Inhabited

/-- `gitlab.CreateIssueNoteOptions` (the fields the migration tool sets:
body and creation time). -/
structure CreateIssueNoteOptions where
  Body : String
  CreatedAt : Option Int
deriving Repr, DecidableEq, Inhabited

/-- `lhTicketVersionToCreateIssueNote(lhVersion, currentVersion, pfs)`:
build the note body from the version's (Markdown-converted) body — omitted
when `currentVersion` is true — followed by the upload snippets, and report
`ok = false` (here `none`) when the assembled body is white space only.
The Markdown converter `lhtoGitLabMarkdown` is passed in as `md`; the
sudo options derived from the version's user are not modelled. -/
def lhTicketVersionToCreateIssueNote (md : String → String)
    (lhVersion : TicketVersion) (currentVersion : Bool)
    (pfs : List GitlabProjectFile) : Option CreateIssueNoteOptions :=
  let createdAt := lhVersion.CreatedAt
  let body := if ¬ currentVersion then md lhVersion.Body else ""
  let body := pfs.foldl
    (fun acc pf => (if acc.length > 0 then acc ++ "\n\n" else acc) ++ pf.Markdown)
    body
  if (goTrimSpace body).length = 0 then none
  else some { Body := body, CreatedAt := createdAt }

/-- The `if ok { CreateIssueNote }` guard of the per-version loop in `main`:
whether an issue note is created for this version. -/
def issueNoteCreated (md : String → String) (lhVersion : TicketVersion)
    (currentVersion : Bool) (pfs : List GitlabProjectFile) : Bool :=
  (lhTicketVersionToCreateIssueNote md lhVersion currentVersion pfs).isSome

/-- The `lhVersion.CreatedAt.Equal(*lhTicket.CreatedAt)` expression of the
per-version loop in `main`: both `*time.Time` values are dereferenced with
no nil guard, so the expression only evaluates (to instant equality) when
both timestamps are present; `none` models the nil-dereference panic. -/
def currentVersionOfTicket (lhVersion : TicketVersion) (lhTicket : Ticket) :
    Option Bool :=
  match lhTicket.CreatedAt with
  | none => none
  | some tc =>
    match lhVersion.CreatedAt with
    | none => none
    | some vc => some (vc == tc)

/-! ## Migration tool: state-definition labels (`lhProjectStatesToCreateLabels`)

The Go code matches each line of a project's open/closed state-definition
string against the regular expression

  `^\s*(?P<name>[^/]+)/(?P<color>[0-9a-fA-F]+)\s*(#\s*(?P<description>.*)\s*)?$`

(RE2, whole-line, greedy with leftmost-biased captures).  Because `[^/]+`
cannot cross a `/`, the name capture necessarily ends at the line's first
`/`; because a shortened `[0-9a-fA-F]+` capture would leave a hex digit —
neither white space nor `#` — in front of the tail, the color capture is
the maximal hex run after that `/`; and the optional group matches exactly
when, after skipping the maximal white-space run, the line is exhausted or
continues with `#`, the description capture being everything after that
`#` and its leading white space (`.*` swallows any trailing `\s*`).
`matchStateLine` below is this determinized form of the regex match. -/

/-- RE2 `\s`: `[\t\n\f\r ]`. -/
def isRegexSpace (c : Char) : Bool :=
  c == ' ' || c == '\t' || c == '\n' || c == '\x0c' || c == '\r'

/-- RE2 `[0-9a-fA-F]`. -/
def isHexDigit (c : Char) : Bool :=
  ('0' ≤ c && c ≤ '9') || ('a' ≤ c && c ≤ 'f') || ('A' ≤ c && c ≤ 'F')

/-- The three captures of `lhStateDefinitionRegexp` (`description` is the
empty sequence when the optional group is absent, matching Go's
`FindStringSubmatch`). -/
structure StateLineMatch where
  name : List Char
  color : List Char
  description : List Char
deriving Repr, DecidableEq, Inhabited

/-- `lhStateDefinitionRegexp.FindStringSubmatch(line)` (whole-line match),
in the determinized form derived above. -/
def matchStateLine (line : List Char) : Option StateLineMatch :=
  let wsMax := (line.takeWhile isRegexSpace).length
  match line.findIdx? (fun c => c = '/') with
  | none => none
  | some slash =>
    if slash = 0 then none
    else
      let nameStart := min wsMax (slash - 1)
      let name := (line.drop nameStart).take (slash - nameStart)
      let afterSlash := line.drop (slash + 1)
      let color := afterSlash.takeWhile isHexDigit
      if color.isEmpty then none
      else
        let rest := (afterSlash.drop color.length).dropWhile isRegexSpace
        match rest with
        | [] => some { name := name, color := color, description := [] }
        | c :: cs =>
          if c = '#' then
            some { name := name, color := color,
                   description := cs.dropWhile isRegexSpace }
          else none

/-- `gitlab.CreateLabelOptions` (the fields the migration tool sets; the
Go pointers produced by `gitlab.String` are modelled as plain strings). -/
structure CreateLabelOptions where
  Name : String
  Color : String
  Description : String
deriving Repr, DecidableEq, Inhabited

/-- The default "help" descriptions that are ignored. -/
def defaultHelpDescriptions : List String :=
  ["You can add comments here",
   "if you want to.",
   "You can customize colors",
   "with 3 or 6 character hex codes",
   "\x27A30\x27 expands to \x27AA3300\x27"]

/-- The per-line body of the loop in `lhProjectStatesToCreateLabels`: on a
regex match, build the label — name is the state key plus the trimmed name
capture; a 3-character color expands by doubling each character and a
6-character color gets a `#` prefix, anything else falls back to the
mandatory default `#428BCA`; the trimmed description is kept unless empty
or one of the default help strings. -/
def stateLineLabel (stateKey : String) (line : List Char) :
    Option CreateLabelOptions :=
  match matchStateLine line with
  | none => none
  | some m =>
    let name := stateKey ++ String.mk (goTrimSpaceList m.name)
    let c :=
      match m.color with
      | [a, b, d] => [a, a, b, b, d, d]
      | other => other
    let color := if c.length = 6 then "#" ++ String.mk c else ""
    let color := if color.length = 0 then "#428BCA" else color
    let d := String.mk (goTrimSpaceList m.description)
    let description :=
      if d.length > 0 ∧ ¬ d ∈ defaultHelpDescriptions then d else ""
    some { Name := name, Color := color, Description := description }

/-- `lhProjectStatesToCreateLabels(text, stateKey)`: split the
state-definition string on newlines; each line matching the pattern
contributes exactly one label, in line order; non-matching lines are
skipped.  (The Go function's boolean second result is always `true` and is
not modelled.) -/
def lhProjectStatesToCreateLabels (text stateKey : String) :
    List CreateLabelOptions :=
  (splitOnNewline text.data).filterMap (stateLineLabel stateKey)

/-! ## Export tool: filesystem-safe names (`filename` in
`cmd/lh/cmd/export.go`) -/

/-- The character class kept by the first replacement regex,
`[^-a-z0-9_]+` negated: hyphen, lowercase letter, digit, underscore. -/
def isFilenameChar (c : Char) : Bool :=
  c == '-' || ('a' ≤ c && c ≤ 'z') || ('0' ≤ c && c ≤ '9') || c == '_'

/-- `regexp.MustCompile("[^-a-z0-9_]+").ReplaceAllString(name, "-")`:
replace every maximal run of characters outside the class with a single
hyphen (the hyphen is emitted at the last character of each run, which
yields the same sequence). -/
def squashRuns : List Char → List Char
  | [] => []
  | [c] => if isFilenameChar c then [c] else ['-']
  | c :: d :: rest =>
    if isFilenameChar c then c :: squashRuns (d :: rest)
    else if isFilenameChar d then '-' :: squashRuns (d :: rest)
    else squashRuns (d :: rest)

/-- `regexp.MustCompile("-+").ReplaceAllString(name, "-")`: collapse every
maximal run of hyphens to a single hyphen (keeping each run's last
hyphen). -/
def squashHyphens : List Char → List Char
  | [] => []
  | [c] => [c]
  | c :: d :: rest =>
    if c == '-' && d == '-' then squashHyphens (d :: rest)
    else c :: squashHyphens (d :: rest)

/-- `strings.TrimRight(name, "-")`. -/
def trimRightHyphens (l : List Char) : List Char :=
  (l.reverse.dropWhile (fun c => c == '-')).reverse

/-- `filename(name)` from the export command: truncate to 20 characters
(Go slices 20 bytes; the inputs of interest are ASCII), trim surrounding
white space, lowercase, replace non-`[-a-z0-9_]` runs with single hyphens,
collapse hyphen runs, and trim trailing hyphens. -/
def charFilename (cs : List Char) : List Char :=
  trimRightHyphens (squashHyphens (squashRuns
    ((goTrimSpaceList (if cs.length > 20 then cs.take 20 else cs)).map goToLower)))

/-- `filename` on `String`. -/
def filename (s : String) : String :=
  String.mk (charFilename s.data)

/-- Whether a character sequence contains two consecutive hyphens. -/
def hasDoubleHyphen : List Char → Bool
  | [] => false
  | [_] => false
  | c :: d :: rest => (c == '-' && d == '-') || hasDoubleHyphen (d :: rest)

/-! ## Update requests (`bins.Service.Update`, `tickets.Service.Update`)

`Update` marshals a narrow update view of the entity inside the singular
resource envelope, PUTs it to the entity's ID/number path, checks the
response against `http.StatusOK` and returns `nil` without reading the
response body further.  JSON documents are modelled by a small value
type; the HTTP exchange by a request record and an abstract
request-to-response function. -/

/-- A JSON value (Go `encoding/json` output shape; object fields are in
struct order). -/
inductive Json where
  | null
  | bool (b : Bool)
  | num (n : Int)
  | str (s : String)
  | arr (elems : List Json)
  | obj (fields : List (String × Json))

/-- Marshalled `*time.Time`: `null` for nil, the instant otherwise (Go
emits an RFC3339 string; only presence and the instant are modelled). -/
def timeJson : Option Int → Json
  | none => Json.null
  | some t => Json.num t

/-- An HTTP request as built by the service methods. -/
structure HttpRequest where
  method : String
  path : String
  body : Option Json

/-- An HTTP response as seen by `lighthouse.CheckResponse` (`body` is the
undecoded payload text). -/
structure HttpResponse where
  status : Nat
  body : String

/-- Modelled from the spec: `lighthouse.CheckResponse(resp, wantStatus)`
(the `lighthouse` base package is not part of the sources here) classifies
any status other than the expected one as an API error carrying the status
code; on the expected status it reports no error.  The structured message
it tries to extract from the body is not modelled. -/
def checkResponse (resp : HttpResponse) (want : Nat) : Option GoError :=
  if resp.status = want then none else some (GoError.apiError resp.status)

/-- The body marshalled by `bins.Service.Update`: the `BinUpdate` view
(exactly `default`, `name`, `query`) inside the `ticket_bin` envelope. -/
def binUpdateBody (b : Bin) : Json :=
  Json.obj [("ticket_bin",
    Json.obj [("default", Json.bool b.Default),
              ("name", Json.str b.Name),
              ("query", Json.str b.Query)])]

/-- The PUT request issued by `bins.Service.Update`. -/
def binsUpdateRequest (basePath : String) (b : Bin) : HttpRequest :=
  { method := "PUT",
    path := basePath ++ "/" ++ toString b.ID ++ ".json",
    body := some (binUpdateBody b) }

/-- `bins.Service.Update`: send the PUT, check for 200, discard the
response body, return the check's error (or `none`).  The entity itself is
not written to. -/
def binsUpdate (basePath : String) (b : Bin)
    (send : HttpRequest → HttpResponse) : Option GoError :=
  checkResponse (send (binsUpdateRequest basePath b)) 200

/-- Marshalled `tickets.Tag` / `tickets.TagResponse`. -/
def tagJson (t : Tag) : Json :=
  Json.obj [("id", Json.num t.ID), ("name", Json.str t.Name)]

/-- Marshalled `tickets.TagResponse` envelope. -/
def tagResponseJson (tr : TagResponse) : Json :=
  Json.obj [("tag", tagJson tr.tag)]

/-- Marshalled `tickets.AlphabeticalTag`: the custom `MarshalJSON` emits a
`[tag, count]` array. -/
def alphabeticalTagJson (at' : AlphabeticalTag) : Json :=
  Json.arr [Json.str at'.Tag, Json.num at'.Count]

/-- Marshalled `tickets.Attachment`. -/
def attachmentJson (a : Attachment) : Json :=
  Json.obj [("attachment_file_processing", Json.bool a.AttachmentFileProcessing),
            ("code", Json.str a.Code),
            ("content_type", Json.str a.ContentType),
            ("created_at", timeJson a.CreatedAt),
            ("filename", Json.str a.Filename),
            ("height", Json.num a.Height),
            ("id", Json.num a.ID),
            ("project_id", Json.num a.ProjectID),
            ("size", Json.num a.Size),
            ("uploader_id", Json.num a.UploaderID),
            ("width", Json.num a.Width),
            ("url", Json.str a.URL)]

/-- Marshalled `tickets.AttachmentResponse` envelope. -/
def attachmentResponseJson (ar : AttachmentResponse) : Json :=
  Json.obj [("attachment", attachmentJson ar.attachment)]

/-- Marshalled `tickets.DiffableAttributes` (every field `omitempty`). -/
def diffableAttributesJson (d : DiffableAttributes) : Json :=
  Json.obj ((if d.State = "" then [] else [("state", Json.str d.State)]) ++
            (if d.Title = "" then [] else [("title", Json.str d.Title)]) ++
            (if d.AssignedUser = 0 then [] else [("assigned_user", Json.num d.AssignedUser)]) ++
            (if d.Milestone = 0 then [] else [("milestone", Json.num d.Milestone)]) ++
            (if d.Tag = "" then [] else [("tag", Json.str d.Tag)]))

/-- Marshalled `tickets.TicketVersion` (`state` and `diffable_attributes`
are `omitempty`; `raw_data` is the byte-string payload, whose base64
transport encoding is not modelled). -/
def ticketVersionJson (v : TicketVersion) : Json :=
  Json.obj ([("assigned_user_id", Json.num v.AssignedUserID),
             ("attachments_count", Json.num v.AttachmentsCount),
             ("body", Json.str v.Body),
             ("body_html", Json.str v.BodyHTML),
             ("closed", Json.bool v.Closed),
             ("created_at", timeJson v.CreatedAt),
             ("creator_id", Json.num v.CreatorID)] ++
            (match v.DiffableAttributes with
             | none => []
             | some d => [("diffable_attributes", diffableAttributesJson d)]) ++
            [("importance", Json.num v.Importance),
             ("milestone_id", Json.num v.MilestoneID),
             ("milestone_order", Json.num v.MilestoneOrder),
             ("number", Json.num v.Number),
             ("permalink", Json.str v.Permalink),
             ("project_id", Json.num v.ProjectID),
             ("raw_data", Json.str v.RawData)] ++
            (if v.State = "" then [] else [("state", Json.str v.State)]) ++
            [("tag", Json.str v.Tag),
             ("title", Json.str v.Title),
             ("updated_at", timeJson v.UpdatedAt),
             ("user_id", Json.num v.UserID),
             ("version", Json.num v.Version)])

/-- Marshalled `tickets.Ticket` (field order follows the struct; `state` is
`omitempty`; `raw_data` as above). -/
def ticketJson (t : Ticket) : Json :=
  Json.obj ([("assigned_user_id", Json.num t.AssignedUserID),
             ("attachments_count", Json.num t.AttachmentsCount),
             ("body", Json.str t.Body),
             ("body_html", Json.str t.BodyHTML),
             ("closed", Json.bool t.Closed),
             ("created_at", timeJson t.CreatedAt),
             ("creator_id", Json.num t.CreatorID),
             ("importance", Json.num t.Importance),
             ("milestone_due_on", timeJson t.MilestoneDueOn),
             ("milestone_id", Json.num t.MilestoneID),
             ("milestone_order", Json.num t.MilestoneOrder),
             ("number", Json.num t.Number),
             ("permalink", Json.str t.Permalink),
             ("project_id", Json.num t.ProjectID),
             ("raw_data", Json.str t.RawData),
             ("spam", Json.bool t.Spam)] ++
            (if t.State = "" then [] else [("state", Json.str t.State)]) ++
            [("tag", Json.str t.Tag),
             ("title", Json.str t.Title),
             ("updated_at", timeJson t.UpdatedAt),
             ("user_id", Json.num t.UserID),
             ("version", Json.num t.Version),
             ("watchers_ids", Json.arr (t.WatchersIDs.map Json.num)),
             ("user_name", Json.str t.UserName),
             ("creator_name", Json.str t.CreatorName),
             ("assigned_user_name", Json.str t.AssignedUserName),
             ("url", Json.str t.URL),
             ("milestone_title", Json.str t.MilestoneTitle),
             ("priority", Json.num t.Priority),
             ("importance_name", Json.str t.ImportanceName),
             ("original_body", Json.str t.OriginalBody),
             ("latest_body", Json.str t.LatestBody),
             ("original_body_html", Json.str t.OriginalBodyHTML),
             ("state_color", Json.str t.StateColor),
             ("tags", Json.arr (t.Tags.map tagResponseJson)),
             ("alphabetical_tags", Json.arr (t.AlphabeticalTags.map alphabeticalTagJson)),
             ("versions", Json.arr (t.Versions.map ticketVersionJson)),
             ("attachments", Json.arr (t.Attachments.map attachmentResponseJson))])

/-- The body marshalled by `tickets.Service.Update`: `TicketUpdate` embeds
the full `*Ticket` (so all ticket fields marshal) and its own `NotifyAll` /
`MultipleWatchers`, both `nil` here and `omitempty`, inside the `ticket`
envelope. -/
def ticketUpdateBody (t : Ticket) : Json :=
  Json.obj [("ticket", ticketJson t)]

/-- The PUT request issued by `tickets.Service.Update` (the path uses the
ticket's number). -/
def ticketsUpdateRequest (basePath : String) (t : Ticket) : HttpRequest :=
  { method := "PUT",
    path := basePath ++ "/" ++ toString t.Number ++ ".json",
    body := some (ticketUpdateBody t) }

/-- `tickets.Service.Update`. -/
def ticketsUpdate (basePath : String) (t : Ticket)
    (send : HttpRequest → HttpResponse) : Option GoError :=
  checkResponse (send (ticketsUpdateRequest basePath t)) 200

/-! ## Migration tool: deterministic ordering in `readLHExport`

After decoding the export archive (enumerated in whatever order the
filesystem yields), `readLHExport` sorts the users and projects lists by ID
with `sort.Slice`, and within each project sorts the milestones by ID and
the tickets by number.  `sort.Slice(l, less)` with `less i j = key i < key j`
is modelled by insertion sort on `key · ≤ key ·` (any correct comparison
sort; `sort.Slice` is unstable, which only matters for duplicate keys). -/

/-- `sort.Slice(l, func(i, j) { return key(l[i]) < key(l[j]) })`. -/
def sortByIntKey (key : α → Int) (l : List α) : List α :=
  List.insertionSort (fun a b => key a ≤ key b) l

/-- `lhAttachment`: an export attachment (entity plus on-disk filename). -/
structure LHAttachment where
  attachment : Attachment
  filename : String
deriving Repr, DecidableEq, Inhabited

/-- `lhTicket`: a decoded ticket with its attachment files. -/
structure LHTicket where
  ticket : Ticket
  attachments : List LHAttachment
deriving Repr, DecidableEq, Inhabited

/-- `lhUser`: a decoded account user (the `users` package's record, which
is not among the sources here, is represented by its `projects.User`
shape; only the `ID` sort key matters) with its memberships and optional
avatar filename. -/
structure LHUser where
  user : User
  memberships : List Membership
  avatar : Option String
deriving Repr, DecidableEq, Inhabited

/-- `lhProject`: a decoded project with its memberships, milestones and
tickets. -/
structure LHProject where
  project : Project
  memberships : List Membership
  milestones : List Milestone
  tickets : List LHTicket
deriving Repr, DecidableEq, Inhabited

/-- `lhExport`: the reconstructed in-memory graph (plan and profile carry
no ordering and are omitted). -/
structure LHExport where
  users : List LHUser
  projects : List LHProject
deriving Repr, DecidableEq, Inhabited

/-- The ordering phase of `readLHExport`: given the users and projects in
filesystem-enumeration order, sort each project's milestones by ID and
tickets by number, then sort the projects by ID and the users by ID. -/
def readLHExportAssemble (users : List LHUser) (projects : List LHProject) :
    LHExport :=
  { users := sortByIntKey (fun u => u.user.ID) users,
    projects := sortByIntKey (fun p => p.project.ID)
      (projects.map (fun p =>
        { p with
          milestones := sortByIntKey (fun m => m.ID) p.milestones,
          tickets := sortByIntKey (fun t => t.ticket.Number) p.tickets })) }

/-! ## Concrete instances used to exercise the theorems -/

/-- A server whose pages 1, 2, 3 have 100, 100 and 37 elements and whose
page 4 (and every later page) is empty. -/
def ticketPagesScenario : TicketListOptions → List Nat := fun o =>
  if o.Page = 1 then List.range 100
  else if o.Page = 2 then List.range 100
  else if o.Page = 3 then List.range 37
  else []

/-- A milestone server with one two-element page. -/
def milestonePagesScenario : MilestoneListOptions → List Nat := fun o =>
  if o.Page = 1 then [7, 8] else []

/-- The ticket decoded from `{"ticket": {"number": n}}`: every other field
keeps its Go zero value. -/
def numberedTicket (n : Int) : Ticket :=
  { (default : Ticket) with Number := n }

/-- Two bins for the lookup examples: distinct IDs, names differing from
the probe string only in case. -/
def demoBinAlpha : Bin :=
  { (default : Bin) with ID := 10, Name := "Alpha" }

/-- See `demoBinAlpha`. -/
def demoBinBeta : Bin :=
  { (default : Bin) with ID := 11, Name := "BETA" }

/-- Two bins sharing their update-view fields but differing elsewhere. -/
def demoBinA : Bin :=
  { (default : Bin) with ID := 1, Name := "inbox", Query := "all", Default := true }

/-- See `demoBinA`. -/
def demoBinB : Bin :=
  { demoBinA with ID := 2, Position := 9, TicketsCount := 3 }

/-- A responder that always answers 200 with some body text. -/
def demoOkResponder : HttpRequest → HttpResponse := fun _ =>
  { status := 200, body := "ignored body" }

/-- Export users with IDs 1 and 2. -/
def demoLHUser1 : LHUser :=
  { (default : LHUser) with user := { (default : User) with ID := 1 } }

/-- See `demoLHUser1`. -/
def demoLHUser2 : LHUser :=
  { (default : LHUser) with user := { (default : User) with ID := 2 } }

/-- A ticket version with no creation timestamp. -/
def demoVersionNoTime : TicketVersion :=
  { (default : TicketVersion) with CreatedAt := none }

/-- A ticket version created at instant 5. -/
def demoVersionAt5 : TicketVersion :=
  { (default : TicketVersion) with CreatedAt := some 5 }

/-- A ticket created at instant 5. -/
def demoTicketAt5 : Ticket :=
  { (default : Ticket) with CreatedAt := some 5 }

/-! # Theorems -/

/-! ## Pagination lemmas -/

/-- The page loop, started at `start` with enough fuel, returns exactly the
concatenation of the pages from `start` up to (excluding) the first empty
page `k`. -/
theorem paginate_spec {α : Type _} (list : Nat → List α) :
    ∀ (fuel start k : Nat), start ≤ k → list k = [] →
      (∀ i, start ≤ i → i < k → list i ≠ []) → k - start < fuel →
      paginate list start fuel =
        some (((List.range' start (k - start)).map list).flatten) := by
  intro fuel
  induction fuel with
  | zero => intro start k _ _ _ hfuel; omega
  | succ fuel ih =>
    intro start k hsk hk hne hfuel
    by_cases hstart : start = k
    · subst hstart
      simp [paginate, hk]
    · have hlt : start < k := lt_of_le_of_ne hsk hstart
      have hne0 : list start ≠ [] := hne start le_rfl hlt
      have hisEmpty : (list start).isEmpty = false := by
        cases h : list start with
        | nil => exact absurd h hne0
        | cons a l => rfl
      have hrec := ih (start + 1) k (by omega) hk
        (fun i h1 h2 => hne i (by omega) h2) (by omega)
      have hdrop : k - start = (k - (start + 1)) + 1 := by omega
      simp only [paginate, hisEmpty, hrec, hdrop, List.range'_succ, List.map_cons,
        List.flatten_cons, Bool.false_eq_true, if_false]

/-! ## Claim C1 -/

/-- Claim C1: `ListAll` (tickets and milestones services) repeatedly calls
`List` with `Page = 1, 2, 3, …`, stops at the first page whose returned
collection is empty, and returns the concatenation, in page order, of every
page before that first empty page; and it ignores any `Page` value in the
caller-supplied options. -/
theorem listAll_concatenates_pages_until_first_empty :
    (∀ (α : Type) (list : TicketListOptions → List α) (opts : TicketListOptions)
        (k fuel : Nat), 1 ≤ k →
        list { opts with Page := k } = [] →
        (∀ i, 1 ≤ i → i < k → list { opts with Page := i } ≠ []) →
        k ≤ fuel →
        ticketsListAll list opts fuel =
          some (((List.range' 1 (k - 1)).map
            (fun i => list { opts with Page := i })).flatten))
  ∧ (∀ (α : Type) (list : MilestoneListOptions → List α)
        (opts : MilestoneListOptions) (k fuel : Nat), 1 ≤ k →
        list { opts with Page := k } = [] →
        (∀ i, 1 ≤ i → i < k → list { opts with Page := i } ≠ []) →
        k ≤ fuel →
        milestonesListAll list opts fuel =
          some (((List.range' 1 (k - 1)).map
            (fun i => list { opts with Page := i })).flatten))
  ∧ (∀ (α : Type) (list : TicketListOptions → List α) (opts : TicketListOptions)
        (p fuel : Nat),
        ticketsListAll list { opts with Page := p } fuel =
          ticketsListAll list opts fuel)
  ∧ (∀ (α : Type) (list : MilestoneListOptions → List α)
        (opts : MilestoneListOptions) (p fuel : Nat),
        milestonesListAll list { opts with Page := p } fuel =
          milestonesListAll list opts fuel) := by
  refine ⟨?_, ?_, ?_, ?_⟩
  · intro α list opts k fuel h1 hk hne hfuel
    have h := paginate_spec (fun page => list { opts with Page := page })
      fuel 1 k h1 hk (fun i hi hik => hne i hi hik) (by omega)
    simpa [ticketsListAll] using h
  · intro α list opts k fuel h1 hk hne hfuel
    have h := paginate_spec (fun page => list { opts with Page := page })
      fuel 1 k h1 hk (fun i hi hik => hne i hi hik) (by omega)
    simpa [milestonesListAll] using h
  · intro α list opts p fuel
    rfl
  · intro α list opts p fuel
    rfl

set_option maxRecDepth 8192 in
/-- Witness for C1: with pages of sizes [100, 100, 37, 0] the result is the
concatenation of the first three pages, of length 237; the one-page
milestone scenario concatenates to its single page. -/
theorem listAll_concatenates_pages_until_first_empty_witness :
    ticketsListAll ticketPagesScenario ⟨"", 100, 7⟩ 5 =
      some (((List.range' 1 3).map
        (fun i => ticketPagesScenario ⟨"", 100, i⟩)).flatten)
  ∧ (((List.range' 1 3).map
        (fun i => ticketPagesScenario ⟨"", 100, i⟩)).flatten).length = 237
  ∧ milestonesListAll milestonePagesScenario ⟨9⟩ 3 = some [7, 8] := by
  refine ⟨?_, ?_, ?_⟩
  · exact listAll_concatenates_pages_until_first_empty.1 Nat ticketPagesScenario
      ⟨"", 100, 7⟩ 4 5 (by decide) (by decide)
      (by intro i h1 h2; interval_cases i <;> decide) (by decide)
  · decide
  · have h := listAll_concatenates_pages_until_first_empty.2.1 Nat
      milestonePagesScenario ⟨9⟩ 2 3 (by decide) (by decide)
      (by intro i h1 h2; interval_cases i; decide) (by decide)
    rw [h]
    decide

/-! ## Claim C2 -/

/-- Claim C2: flattening a decoded collection response yields exactly one
entity per element of the nested singleton-wrapped array, in array order —
in particular the payload with tickets numbered 1 then 2 flattens to those
two tickets in that order — and the flattened length equals the array
length (shown for the tickets and bins collection payloads). -/
theorem collection_flatten_one_entity_per_element :
    (∀ msr : TicketsResponse,
        (ticketsResponseTickets msr).length = msr.Tickets.length)
  ∧ (∀ (msr : TicketsResponse) (i : Nat),
        (ticketsResponseTickets msr)[i]? =
          (msr.Tickets[i]?).map (fun m => m.ticket))
  ∧ (∀ bsr : BinsResponse, (binsResponseBins bsr).length = bsr.Bins.length)
  ∧ (∀ (bsr : BinsResponse) (i : Nat),
        (binsResponseBins bsr)[i]? = (bsr.Bins[i]?).map (fun b => b.bin))
  ∧ ticketsResponseTickets ⟨[⟨numberedTicket 1⟩, ⟨numberedTicket 2⟩]⟩ =
      [numberedTicket 1, numberedTicket 2]
  ∧ (ticketsResponseTickets ⟨[⟨numberedTicket 1⟩, ⟨numberedTicket 2⟩]⟩).map
      (fun t => t.Number) = [1, 2] := by
  refine ⟨?_, ?_, ?_, ?_, ?_, ?_⟩
  · intro msr; simp [ticketsResponseTickets]
  · intro msr i; simp [ticketsResponseTickets, List.getElem?_map]
  · intro bsr; simp [binsResponseBins]
  · intro bsr i; simp [binsResponseBins, List.getElem?_map]
  · rfl
  · rfl

/-! ## Lookup lemmas -/

/-- `find?` returns the element at the first index satisfying the
predicate. -/
theorem find?_eq_of_first {α : Type _} (p : α → Bool) :
    ∀ (l : List α) (i : Nat) (h : i < l.length),
      p (l.get ⟨i, h⟩) = true →
      (∀ (j : Nat) (hj : j < l.length), j < i → p (l.get ⟨j, hj⟩) = false) →
      l.find? p = some (l.get ⟨i, h⟩) := by
  intro l
  induction l with
  | nil => intro i h hp hbefore; simp at h
  | cons a t ih =>
    intro i h hp hbefore
    cases i with
    | zero =>
      have hpa : p a = true := hp
      simp [List.find?_cons_of_pos _ hpa]
    | succ i =>
      have hpa : p a = false := hbefore 0 (Nat.succ_pos _) (Nat.succ_pos i)
      rw [List.find?_cons_of_neg _ (by simp [hpa])]
      exact ih i (Nat.lt_of_succ_lt_succ h) hp
        (fun j hj hji => hbefore (j + 1) (Nat.succ_lt_succ hj) (by omega))

/-! ## Claim C3 -/

/-- Claim C3: for every resource service with name lookup (bins, projects,
messages, milestones), the by-name `Get`/`Delete` path scans the listed
entities case-insensitively: if some entity's lowered name/title equals the
lowered argument, the first such entity is returned (and its ID is what the
delete-by-ID call uses); if none matches, the operation fails with the
`no such …` not-found error. -/
theorem name_lookup_case_insensitive_first_match :
    (∀ (bs : List Bin) (name : String),
       ((∀ b, b ∈ bs → goToLowerStr b.Name ≠ goToLowerStr name) →
          binsGetByName bs name = Except.error (GoError.noSuchBin name) ∧
          binsDeleteByName bs name = Except.error (GoError.noSuchBin name))
     ∧ (∀ (i : Nat) (h : i < bs.length),
          goToLowerStr (bs.get ⟨i, h⟩).Name = goToLowerStr name →
          (∀ (j : Nat) (hj : j < bs.length), j < i →
             goToLowerStr (bs.get ⟨j, hj⟩).Name ≠ goToLowerStr name) →
          binsGetByName bs name = Except.ok (bs.get ⟨i, h⟩) ∧
          binsDeleteByName bs name = Except.ok (bs.get ⟨i, h⟩).ID))
  ∧ (∀ (ps : List Project) (name : String),
       ((∀ p, p ∈ ps → goToLowerStr p.Name ≠ goToLowerStr name) →
          projectsGetByName ps name = Except.error (GoError.noSuchProject name) ∧
          projectsDeleteByName ps name = Except.error (GoError.noSuchProject name))
     ∧ (∀ (i : Nat) (h : i < ps.length),
          goToLowerStr (ps.get ⟨i, h⟩).Name = goToLowerStr name →
          (∀ (j : Nat) (hj : j < ps.length), j < i →
             goToLowerStr (ps.get ⟨j, hj⟩).Name ≠ goToLowerStr name) →
          projectsGetByName ps name = Except.ok (ps.get ⟨i, h⟩) ∧
          projectsDeleteByName ps name = Except.ok (ps.get ⟨i, h⟩).ID))
  ∧ (∀ (ms : List Message) (title : String),
       ((∀ m, m ∈ ms → goToLowerStr m.Title ≠ goToLowerStr title) →
          messagesGetByTitle ms title = Except.error (GoError.noSuchMessage title) ∧
          messagesDeleteByTitle ms title = Except.error (GoError.noSuchMessage title))
     ∧ (∀ (i : Nat) (h : i < ms.length),
          goToLowerStr (ms.get ⟨i, h⟩).Title = goToLowerStr title →
          (∀ (j : Nat) (hj : j < ms.length), j < i →
             goToLowerStr (ms.get ⟨j, hj⟩).Title ≠ goToLowerStr title) →
          messagesGetByTitle ms title = Except.ok (ms.get ⟨i, h⟩) ∧
          messagesDeleteByTitle ms title = Except.ok (ms.get ⟨i, h⟩).ID))
  ∧ (∀ (ms : List Milestone) (title : String),
       ((∀ m, m ∈ ms → goToLowerStr m.Title ≠ goToLowerStr title) →
          milestonesGetByTitle ms title = Except.error (GoError.noSuchMilestone title) ∧
          milestonesDeleteByTitle ms title = Except.error (GoError.noSuchMilestone title))
     ∧ (∀ (i : Nat) (h : i < ms.length),
          goToLowerStr (ms.get ⟨i, h⟩).Title = goToLowerStr title →
          (∀ (j : Nat) (hj : j < ms.length), j < i →
             goToLowerStr (ms.get ⟨j, hj⟩).Title ≠ goToLowerStr title) →
          milestonesGetByTitle ms title = Except.ok (ms.get ⟨i, h⟩) ∧
          milestonesDeleteByTitle ms title = Except.ok (ms.get ⟨i, h⟩).ID)) := by
  refine ⟨?_, ?_, ?_, ?_⟩
  · intro bs name
    constructor
    · intro hnone
      have hfind : bs.find? (fun b => goToLowerStr b.Name == goToLowerStr name) = none := by
        rw [List.find?_eq_none]
        intro x hx hc
        exact hnone x hx (by simpa using hc)
      exact ⟨by simp [binsGetByName, hfind],
             by simp [binsDeleteByName, binsGetByName, hfind]⟩
    · intro i h hmatch hbefore
      have hfind := find?_eq_of_first
        (fun b => goToLowerStr b.Name == goToLowerStr name) bs i h
        (by simpa using hmatch)
        (fun j hj hji => by simpa using hbefore j hj hji)
      exact ⟨by simp [binsGetByName, hfind],
             by simp [binsDeleteByName, binsGetByName, hfind]⟩
  · intro ps name
    constructor
    · intro hnone
      have hfind : ps.find? (fun p => goToLowerStr name == goToLowerStr p.Name) = none := by
        rw [List.find?_eq_none]
        intro x hx hc
        refine hnone x hx ?_
        exact (beq_iff_eq.mp hc).symm
      exact ⟨by simp [projectsGetByName, hfind],
             by simp [projectsDeleteByName, projectsGetByName, hfind]⟩
    · intro i h hmatch hbefore
      have hfind := find?_eq_of_first
        (fun p => goToLowerStr name == goToLowerStr p.Name) ps i h
        (by rw [beq_iff_eq]; exact hmatch.symm)
        (fun j hj hji => by
          rw [beq_eq_false_iff_ne]
          exact fun hc => (hbefore j hj hji) hc.symm)
      exact ⟨by simp [projectsGetByName, hfind],
             by simp [projectsDeleteByName, projectsGetByName, hfind]⟩
  · intro ms title
    constructor
    · intro hnone
      have hfind : ms.find? (fun m => goToLowerStr m.Title == goToLowerStr title) = none := by
        rw [List.find?_eq_none]
        intro x hx hc
        exact hnone x hx (by simpa using hc)
      exact ⟨by simp [messagesGetByTitle, hfind],
             by simp [messagesDeleteByTitle, messagesGetByTitle, hfind]⟩
    · intro i h hmatch hbefore
      have hfind := find?_eq_of_first
        (fun m => goToLowerStr m.Title == goToLowerStr title) ms i h
        (by simpa using hmatch)
        (fun j hj hji => by simpa using hbefore j hj hji)
      exact ⟨by simp [messagesGetByTitle, hfind],
             by simp [messagesDeleteByTitle, messagesGetByTitle, hfind]⟩
  · intro ms title
    constructor
    · intro hnone
      have hfind : ms.find? (fun m => goToLowerStr m.Title == goToLowerStr title) = none := by
        rw [List.find?_eq_none]
        intro x hx hc
        exact hnone x hx (by simpa using hc)
      exact ⟨by simp [milestonesGetByTitle, hfind],
             by simp [milestonesDeleteByTitle, milestonesGetByTitle, hfind]⟩
    · intro i h hmatch hbefore
      have hfind := find?_eq_of_first
        (fun m => goToLowerStr m.Title == goToLowerStr title) ms i h
        (by simpa using hmatch)
        (fun j hj hji => by simpa using hbefore j hj hji)
      exact ⟨by simp [milestonesGetByTitle, hfind],
             by simp [milestonesDeleteByTitle, milestonesGetByTitle, hfind]⟩

/-- Witness for C3: the probe "beta" has no case-sensitive match among the
bins named "Alpha" and "BETA", but case-insensitively matches "BETA", so
`GetByName` returns that bin and `DeleteByName` deletes its ID 11;
the probe "gamma" matches nothing and yields the not-found error. -/
theorem name_lookup_case_insensitive_first_match_witness :
    binsGetByName [demoBinAlpha, demoBinBeta] "beta" = Except.ok demoBinBeta
  ∧ binsDeleteByName [demoBinAlpha, demoBinBeta] "beta" = Except.ok 11
  ∧ binsGetByName [demoBinAlpha, demoBinBeta] "gamma" =
      Except.error (GoError.noSuchBin "gamma") := by
  have hfound := (name_lookup_case_insensitive_first_match.1
      [demoBinAlpha, demoBinBeta] "beta").2 1 (by decide) (by decide)
      (by intro j hj hj1
          interval_cases j
          show goToLowerStr demoBinAlpha.Name ≠ goToLowerStr "beta"
          decide)
  have hnone := (name_lookup_case_insensitive_first_match.1
      [demoBinAlpha, demoBinBeta] "gamma").1 (by decide)
  exact ⟨hfound.1, hfound.2, hnone.1⟩

/-! ## Claim C4 -/

/-- Claim C4: `lhTicketVersionToCreateIssueNote` called with
`currentVersion` true omits the version's body (the result does not depend
on it), and with no uploaded project files the assembled body is empty, so
the function reports `ok = false` and the loop's `if ok` guard creates no
issue note for that version. -/
theorem current_version_note_not_reposted :
    (∀ (md : String → String) (v : TicketVersion),
        lhTicketVersionToCreateIssueNote md v true [] = none)
  ∧ (∀ (md : String → String) (v : TicketVersion) (pfs : List GitlabProjectFile)
        (b₁ b₂ : String),
        lhTicketVersionToCreateIssueNote md { v with Body := b₁ } true pfs =
          lhTicketVersionToCreateIssueNote md { v with Body := b₂ } true pfs)
  ∧ (∀ (md : String → String) (v : TicketVersion),
        issueNoteCreated md v true [] = false) := by
  refine ⟨?_, ?_, ?_⟩
  · intro md v; rfl
  · intro md v pfs b₁ b₂; rfl
  · intro md v; rfl

/-! ## Claim C10 -/

/-- Claim C10: the per-ticket version loop's expression
`lhVersion.CreatedAt.Equal(*lhTicket.CreatedAt)` dereferences both
timestamps with no nil guard: it evaluates (to instant equality) exactly
when both the version's and the ticket's `CreatedAt` are present, and the
absence of either one is the modelled nil-dereference panic (`none`). -/
theorem version_loop_requires_created_at :
    (∀ (v : TicketVersion) (t : Ticket),
        (currentVersionOfTicket v t).isSome =
          (v.CreatedAt.isSome && t.CreatedAt.isSome))
  ∧ (∀ (v : TicketVersion) (t : Ticket), v.CreatedAt = none →
        currentVersionOfTicket v t = none)
  ∧ (∀ (v : TicketVersion) (t : Ticket), t.CreatedAt = none →
        currentVersionOfTicket v t = none)
  ∧ (∀ (v : TicketVersion) (t : Ticket) (a b : Int),
        v.CreatedAt = some a → t.CreatedAt = some b →
        currentVersionOfTicket v t = some (a == b)) := by
  refine ⟨?_, ?_, ?_, ?_⟩
  · intro v t
    cases hv : v.CreatedAt <;> cases ht : t.CreatedAt <;>
      simp [currentVersionOfTicket, hv, ht]
  · intro v t hv
    cases ht : t.CreatedAt <;> simp [currentVersionOfTicket, hv, ht]
  · intro v t ht
    simp [currentVersionOfTicket, ht]
  · intro v t a b hv ht
    simp [currentVersionOfTicket, hv, ht]

/-- Witness for C10: a version without a creation timestamp panics the
loop expression (modelled `none`) against a ticket created at instant 5,
while a version created at instant 5 evaluates to `true` there. -/
theorem version_loop_requires_created_at_witness :
    currentVersionOfTicket demoVersionNoTime demoTicketAt5 = none
  ∧ currentVersionOfTicket demoVersionAt5 demoTicketAt5 = some true := by
  constructor
  · exact version_loop_requires_created_at.2.1 demoVersionNoTime demoTicketAt5 rfl
  · have h := version_loop_requires_created_at.2.2.2 demoVersionAt5 demoTicketAt5
      5 5 rfl rfl
    simpa using h

/-! ## Claim C9 (corrected) -/

/-- Counterexample to C9 as stated: `Number("#" + s)` and `Number(s)` are
not literally equal for every non-`#`-prefixed `s`, because on a parse
failure each error message quotes its own original argument: at `s = "x"`
one error quotes `"#x"` and the other quotes `"x"`. -/
theorem number_hash_prefix_not_literally_equal :
    Number "#x" ≠ Number "x" := by
  intro h
  rw [show Number "#x" = Except.error (GoError.invalidTicketNumber "#x") from rfl,
      show Number "x" = Except.error (GoError.invalidTicketNumber "x") from rfl] at h
  simp at h

/-- Claim C9, amended: `Number` strips at most one leading `#` and parses
the remainder as a decimal 64-bit integer, so for `s` not starting with
`#`, `Number("#" + s)` and `Number(s)` succeed together with the same
value and fail together, each failure being an `invalid ticket number`
error quoting the respective original argument; `Get`/`Delete` accept both
`"123"` and `"#123"` (and reject `"##123"`, only one `#` being stripped),
and on a parse failure they return that error without any fallback
lookup. -/
theorem number_strips_one_hash_and_no_fallback :
    (∀ s : String, goHasPrefixHash s = false →
       ((∀ n : Int, Number ("#" ++ s) = Except.ok n ↔ Number s = Except.ok n)
      ∧ (Number ("#" ++ s) = Except.error (GoError.invalidTicketNumber ("#" ++ s)) ↔
           Number s = Except.error (GoError.invalidTicketNumber s))
      ∧ (∀ e, Number s = Except.error e → e = GoError.invalidTicketNumber s)
      ∧ (∀ e, Number ("#" ++ s) = Except.error e →
           e = GoError.invalidTicketNumber ("#" ++ s))))
  ∧ Number "123" = Except.ok 123
  ∧ Number "#123" = Except.ok 123
  ∧ Number "##123" = Except.error (GoError.invalidTicketNumber "##123")
  ∧ (∀ (fetch : Int → Except GoError Ticket) (s : String) (e : GoError),
        Number s = Except.error e → ticketsGet fetch s = Except.error e)
  ∧ (∀ (del : Int → Except GoError Unit) (s : String) (e : GoError),
        Number s = Except.error e → ticketsDelete del s = Except.error e) := by
  have key : ∀ s : String, goHasPrefixHash s = false →
      (Number ("#" ++ s) =
        (match goParseIntBase10Int64 s with
         | some n => Except.ok n
         | none => Except.error (GoError.invalidTicketNumber ("#" ++ s)))) ∧
      (Number s =
        (match goParseIntBase10Int64 s with
         | some n => Except.ok n
         | none => Except.error (GoError.invalidTicketNumber s))) := by
    intro s hs
    have hdata : ("#" ++ s).data = '#' :: s.data := by cases s; rfl
    have hmk : String.mk s.data = s := by cases s; rfl
    constructor
    · simp [Number, goHasPrefixHash, hdata, hmk]
    · simp [Number, hs]
  refine ⟨?_, rfl, rfl, rfl, ?_, ?_⟩
  · intro s hs
    obtain ⟨h1, h2⟩ := key s hs
    refine ⟨?_, ?_, ?_, ?_⟩
    · intro n
      rw [h1, h2]
      cases hp : goParseIntBase10Int64 s <;> simp
    · rw [h1, h2]
      cases hp : goParseIntBase10Int64 s <;> simp
    · intro e he
      rw [h2] at he
      cases hp : goParseIntBase10Int64 s <;> rw [hp] at he <;> simp_all
    · intro e he
      rw [h1] at he
      cases hp : goParseIntBase10Int64 s <;> rw [hp] at he <;> simp_all
  · intro fetch s e h
    simp [ticketsGet, h]
  · intro del s e h
    simp [ticketsDelete, h]

/-- Witness for the amended C9 at `s = "abc"` (no leading `#`): both calls
fail together with their respective quoted arguments. -/
theorem number_strips_one_hash_and_no_fallback_witness :
    (Number "#abc" = Except.error (GoError.invalidTicketNumber "#abc") ↔
       Number "abc" = Except.error (GoError.invalidTicketNumber "abc"))
  ∧ (Number ("#" ++ "42") = Except.ok 42 ↔ Number "42" = Except.ok 42) := by
  constructor
  · exact ((number_strips_one_hash_and_no_fallback.1 "abc" rfl).2.1)
  · exact ((number_strips_one_hash_and_no_fallback.1 "42" rfl).1 42)

/-! ## Claim C5 -/

/-- Claim C5: `lhProjectStatesToCreateLabels` emits exactly one label per
line of the state-definition string matching the `name/hexcolor [# comment]`
pattern and none for a non-matching line; the emitted label's name is the
state-key prefix plus the trimmed state name, its color is `#` plus the hex
code (a 3-character code doubled to 6 characters, the default `#428BCA`
when no valid color results), and its description is the trimmed comment
unless that is one of the known default help strings.  The first conjunct
counts one label per matching line; the concrete conjuncts exhibit each of
the claim's clauses (the example line, 3-character expansion, default
color fallback, suppressed default help text, and a skipped non-matching
line). -/
theorem project_states_to_labels_spec :
    (∀ (text stateKey : String),
        (lhProjectStatesToCreateLabels text stateKey).length =
          (splitOnNewline text.data).countP (fun l => (matchStateLine l).isSome))
  ∧ lhProjectStatesToCreateLabels "open/428BCA # comment" "lh::" =
      [{ Name := "lh::open", Color := "#428BCA", Description := "comment" }]
  ∧ lhProjectStatesToCreateLabels "open/A30" "s" =
      [{ Name := "sopen", Color := "#AA3300", Description := "" }]
  ∧ lhProjectStatesToCreateLabels "open/ABCD" "s" =
      [{ Name := "sopen", Color := "#428BCA", Description := "" }]
  ∧ lhProjectStatesToCreateLabels "  open  /428BCA #   if you want to." "s" =
      [{ Name := "sopen", Color := "#428BCA", Description := "" }]
  ∧ lhProjectStatesToCreateLabels "garbage line\nopen/428BCA\n" "s" =
      [{ Name := "sopen", Color := "#428BCA", Description := "" }] := by
  refine ⟨?_, rfl, rfl, rfl, rfl, rfl⟩
  intro text stateKey
  rw [lhProjectStatesToCreateLabels, List.length_filterMap_eq_countP]
  congr 1
  funext l
  cases h : matchStateLine l <;> simp [stateLineLabel, h]

/-! ## Filename lemmas -/

/-- Replacing non-filename runs never lengthens the sequence. -/
theorem squashRuns_length (l : List Char) : (squashRuns l).length ≤ l.length := by
  induction l using squashRuns.induct with
  | case1 => simp [squashRuns]
  | case2 c h => simp [squashRuns, h]
  | case3 c h => simp [squashRuns, h]
  | case4 c d rest h ih =>
    simp only [squashRuns, if_pos h, List.length_cons] at ih ⊢; omega
  | case5 c d rest h h2 ih =>
    simp only [squashRuns, if_neg h, if_pos h2, List.length_cons] at ih ⊢; omega
  | case6 c d rest h h2 ih =>
    simp only [squashRuns, if_neg h, if_neg h2, List.length_cons] at ih ⊢; omega

/-- Collapsing hyphen runs never lengthens the sequence. -/
theorem squashHyphens_length (l : List Char) : (squashHyphens l).length ≤ l.length := by
  induction l using squashHyphens.induct with
  | case1 => simp [squashHyphens]
  | case2 c => simp [squashHyphens]
  | case3 c d rest h ih =>
    simp only [squashHyphens, if_pos h, List.length_cons] at ih ⊢; omega
  | case4 c d rest h ih =>
    simp only [squashHyphens, if_neg h, List.length_cons] at ih ⊢; omega

/-- A double hyphen is exactly an occurrence of `"--"` as an infix. -/
theorem hasDoubleHyphen_iff_dash_pair (l : List Char) :
    hasDoubleHyphen l = true ↔ ['-', '-'] <:+: l := by
  induction l using hasDoubleHyphen.induct with
  | case1 => simp [hasDoubleHyphen]
  | case2 c =>
    simp [hasDoubleHyphen]
    intro h
    have := h.length_le
    simp at this
  | case3 c d rest ih =>
    rw [hasDoubleHyphen]
    constructor
    · intro h
      rcases Bool.or_eq_true_iff.mp h with h1 | h1
      · have hcd := Bool.and_eq_true_iff.mp h1
        have hc : c = '-' := eq_of_beq hcd.1
        have hd : d = '-' := eq_of_beq hcd.2
        subst hc; subst hd
        exact ⟨[], rest, rfl⟩
      · exact (ih.mp h1).trans (List.infix_cons_iff.mpr (Or.inr (List.infix_refl _)))
    · intro h
      rcases List.infix_cons_iff.mp h with h1 | h1
      · rcases List.cons_prefix_cons.mp h1 with ⟨hc, h2⟩
        rcases List.cons_prefix_cons.mp h2 with ⟨hd, _⟩
        subst hc; subst hd
        simp
      · exact Bool.or_eq_true_iff.mpr (Or.inr (ih.mpr h1))

/-- Collapsing hyphen runs keeps a non-hyphen head in place. -/
theorem squashHyphens_head_ne (d : Char) (r : List Char) (hd : ¬ d = '-') :
    (squashHyphens (d :: r)).head? = some d := by
  cases r with
  | nil => rfl
  | cons e rest =>
    have hdb : (d == '-') = false := by simpa using hd
    simp [squashHyphens, hdb]

/-- After collapsing hyphen runs no double hyphen remains. -/
theorem squashHyphens_no_double (l : List Char) :
    hasDoubleHyphen (squashHyphens l) = false := by
  induction l using squashHyphens.induct with
  | case1 => rfl
  | case2 c => rfl
  | case3 c d rest h ih => rw [squashHyphens, if_pos h]; exact ih
  | case4 c d rest h ih =>
    rw [squashHyphens, if_neg h]
    by_cases hc : c = '-'
    · subst hc
      have hd : ¬ d = '-' := by
        intro hd; subst hd; simp at h
      have hhead := squashHyphens_head_ne d rest hd
      cases hX : squashHyphens (d :: rest) with
      | nil => simp [hasDoubleHyphen]
      | cons x xs =>
        rw [hX] at hhead
        have hx : x = d := by simpa using hhead
        rw [hX] at ih
        have hxb : (x == '-') = false := by
          subst hx; simpa using hd
        simp [hasDoubleHyphen, hxb, ih]
    · cases hX : squashHyphens (d :: rest) with
      | nil => simp [hasDoubleHyphen]
      | cons x xs =>
        rw [hX] at ih
        have hcb : (c == '-') = false := by simpa using hc
        simp [hasDoubleHyphen, hcb, ih]

/-- Right-trimming hyphens cannot introduce a double hyphen. -/
theorem hasDoubleHyphen_trimRight (l : List Char) :
    hasDoubleHyphen (trimRightHyphens l) = true → hasDoubleHyphen l = true := by
  intro h
  rw [hasDoubleHyphen_iff_dash_pair] at h ⊢
  have h1 : ['-', '-'] <:+: l.reverse.dropWhile (fun c => c == '-') := by
    have h' : (['-', '-'] : List Char).reverse <:+:
        (l.reverse.dropWhile (fun c => c == '-')).reverse := by simpa using h
    exact List.reverse_infix.mp h'
  have h2 : l.reverse.dropWhile (fun c => c == '-') <:+: l.reverse :=
    (List.dropWhile_suffix _).isInfix
  have h3 : (['-', '-'] : List Char).reverse <:+: l.reverse := by
    simpa using h1.trans h2
  exact List.reverse_infix.mp h3

/-- Trimming white space never lengthens the sequence. -/
theorem goTrimSpaceList_length (l : List Char) :
    (goTrimSpaceList l).length ≤ l.length := by
  unfold goTrimSpaceList
  have h1 := (List.dropWhile_suffix (l := l) isGoSpace).length_le
  have h2 := (List.dropWhile_suffix (l := (l.dropWhile isGoSpace).reverse) isGoSpace).length_le
  simp only [List.length_reverse] at h1 h2 ⊢
  omega

/-- Right-trimming hyphens never lengthens the sequence. -/
theorem trimRightHyphens_length (l : List Char) :
    (trimRightHyphens l).length ≤ l.length := by
  unfold trimRightHyphens
  have h1 := (List.dropWhile_suffix (l := l.reverse) (fun c => c == '-')).length_le
  simp only [List.length_reverse] at h1 ⊢
  omega

/-- The sanitized name has at most 20 characters. -/
theorem charFilename_length (l : List Char) : (charFilename l).length ≤ 20 := by
  unfold charFilename
  have h0 : (if l.length > 20 then l.take 20 else l).length ≤ 20 := by
    by_cases h : l.length > 20
    · simp [h, List.length_take]
    · simp [h]; omega
  have h1 := goTrimSpaceList_length (if l.length > 20 then l.take 20 else l)
  have h2 := squashRuns_length ((goTrimSpaceList (if l.length > 20 then l.take 20 else l)).map goToLower)
  have h3 := squashHyphens_length (squashRuns ((goTrimSpaceList (if l.length > 20 then l.take 20 else l)).map goToLower))
  have h4 := trimRightHyphens_length (squashHyphens (squashRuns ((goTrimSpaceList (if l.length > 20 then l.take 20 else l)).map goToLower)))
  simp only [List.length_map] at h2
  omega

/-- The sanitized name has no two consecutive hyphens. -/
theorem charFilename_no_double (l : List Char) :
    hasDoubleHyphen (charFilename l) = false := by
  unfold charFilename
  have hsq := squashHyphens_no_double (squashRuns ((goTrimSpaceList (if l.length > 20 then l.take 20 else l)).map goToLower))
  cases hX : hasDoubleHyphen (trimRightHyphens (squashHyphens (squashRuns ((goTrimSpaceList (if l.length > 20 then l.take 20 else l)).map goToLower)))) with
  | false => rfl
  | true => rw [hasDoubleHyphen_trimRight _ hX] at hsq; exact hsq

/-- The sanitized name does not end in a hyphen. -/
theorem charFilename_last_ne (l : List Char) :
    (charFilename l).getLast? ≠ some '-' := by
  intro hcon
  unfold charFilename trimRightHyphens at hcon
  rw [List.getLast?_reverse] at hcon
  have h2 := List.head?_dropWhile_not (fun c => c == '-')
    ((squashHyphens (squashRuns ((goTrimSpaceList (if l.length > 20 then l.take 20 else l)).map goToLower))).reverse)
  rw [hcon] at h2
  simp at h2

/-! ## Claim C6 -/

/-- Claim C6: for every input string, the filesystem-safe `filename`
function returns a string of at most 20 characters, containing no two
consecutive hyphens and no trailing hyphen (it truncates to 20 characters,
lowercases, collapses runs of characters outside `[-a-z0-9_]` to single
hyphens, collapses hyphen runs and trims trailing hyphens); in particular
`"Fix login bug!!"` maps to `"fix-login-bug"`, such a string. -/
theorem filename_safe_shape :
    (∀ s : String,
        (filename s).length ≤ 20
      ∧ hasDoubleHyphen (filename s).data = false
      ∧ (filename s).data.getLast? ≠ some '-')
  ∧ filename "Fix login bug!!" = "fix-login-bug" := by
  constructor
  · intro s
    exact ⟨charFilename_length s.data, charFilename_no_double s.data,
           charFilename_last_ne s.data⟩
  · rfl

/-! ## Claim C7 -/

/-- Claim C7: `Update` marshals only the update-view fields of the entity,
wrapped in the singular resource envelope (for bins exactly
`default`/`name`/`query` under `ticket_bin`, so the body is unchanged by
any difference outside those fields; for tickets the `TicketUpdate` view —
the embedded ticket, its empty optional notify fields omitted — under
`ticket`), issues a PUT to the entity's ID/number path expecting the
success status, discards the response body content (the outcome depends
only on the status), and returns nil exactly on the success status.  The
modelled operation is pure, so the passed entity is left unchanged by
construction. -/
theorem update_marshals_update_view :
    (∀ (bp : String) (b : Bin),
        (binsUpdateRequest bp b).method = "PUT"
      ∧ (binsUpdateRequest bp b).path = bp ++ "/" ++ toString b.ID ++ ".json"
      ∧ (binsUpdateRequest bp b).body =
          some (Json.obj [("ticket_bin",
            Json.obj [("default", Json.bool b.Default),
                      ("name", Json.str b.Name),
                      ("query", Json.str b.Query)])]))
  ∧ (∀ b b' : Bin, b.Default = b'.Default → b.Name = b'.Name →
        b.Query = b'.Query → binUpdateBody b = binUpdateBody b')
  ∧ (∀ (bp : String) (b : Bin) (send send' : HttpRequest → HttpResponse),
        (∀ r, (send r).status = (send' r).status) →
        binsUpdate bp b send = binsUpdate bp b send')
  ∧ (∀ (bp : String) (b : Bin) (send : HttpRequest → HttpResponse),
        binsUpdate bp b send = none ↔
          (send (binsUpdateRequest bp b)).status = 200)
  ∧ (∀ (bp : String) (t : Ticket),
        (ticketsUpdateRequest bp t).method = "PUT"
      ∧ (ticketsUpdateRequest bp t).path = bp ++ "/" ++ toString t.Number ++ ".json"
      ∧ (ticketsUpdateRequest bp t).body = some (Json.obj [("ticket", ticketJson t)]))
  ∧ (∀ (bp : String) (t : Ticket) (send send' : HttpRequest → HttpResponse),
        (∀ r, (send r).status = (send' r).status) →
        ticketsUpdate bp t send = ticketsUpdate bp t send')
  ∧ (∀ (bp : String) (t : Ticket) (send : HttpRequest → HttpResponse),
        ticketsUpdate bp t send = none ↔
          (send (ticketsUpdateRequest bp t)).status = 200) := by
  refine ⟨?_, ?_, ?_, ?_, ?_, ?_, ?_⟩
  · intro bp b
    exact ⟨rfl, rfl, rfl⟩
  · intro b b' h1 h2 h3
    simp [binUpdateBody, h1, h2, h3]
  · intro bp b send send' hstat
    simp [binsUpdate, checkResponse, hstat (binsUpdateRequest bp b)]
  · intro bp b send
    by_cases h : (send (binsUpdateRequest bp b)).status = 200 <;>
      simp [binsUpdate, checkResponse, h]
  · intro bp t
    exact ⟨rfl, rfl, rfl⟩
  · intro bp t send send' hstat
    simp [ticketsUpdate, checkResponse, hstat (ticketsUpdateRequest bp t)]
  · intro bp t send
    by_cases h : (send (ticketsUpdateRequest bp t)).status = 200 <;>
      simp [ticketsUpdate, checkResponse, h]

/-- Witness for C7: two bins sharing only their update-view fields marshal
to the same body, and an update against a responder answering 200 returns
no error. -/
theorem update_marshals_update_view_witness :
    binUpdateBody demoBinA = binUpdateBody demoBinB
  ∧ binsUpdate "/projects/7/bins" demoBinA demoOkResponder = none := by
  constructor
  · exact update_marshals_update_view.2.1 demoBinA demoBinB rfl rfl rfl
  · exact (update_marshals_update_view.2.2.2.1 "/projects/7/bins" demoBinA
      demoOkResponder).mpr rfl

/-! ## Sorting lemmas -/

/-- The modelled `sort.Slice` output is nondecreasing in the key. -/
theorem sortByIntKey_sorted {α : Type _} (key : α → Int) (l : List α) :
    List.Pairwise (fun a b => key a ≤ key b) (sortByIntKey key l) := by
  haveI : IsTotal α (fun a b => key a ≤ key b) := ⟨fun a b => Int.le_total _ _⟩
  haveI : IsTrans α (fun a b => key a ≤ key b) :=
    ⟨fun a b c h1 h2 => le_trans h1 h2⟩
  exact List.sorted_insertionSort _ l

/-- The modelled `sort.Slice` output is a permutation of its input. -/
theorem sortByIntKey_perm {α : Type _} (key : α → Int) (l : List α) :
    (sortByIntKey key l).Perm l :=
  List.perm_insertionSort _ l

/-- With pairwise-distinct keys, a nondecreasing list is strictly
increasing in the key. -/
theorem pairwise_lt_of_le_nodup {α : Type _} (key : α → Int) (l : List α)
    (hs : List.Pairwise (fun a b => key a ≤ key b) l)
    (hnd : (l.map key).Nodup) :
    List.Pairwise (fun a b => key a < key b) l := by
  have hne : List.Pairwise (fun a b => key a ≠ key b) l :=
    List.pairwise_map.mp hnd
  exact List.Pairwise.imp₂ (fun a b h1 h2 => lt_of_le_of_ne h1 h2) hs hne

/-- Two strictly key-sorted permutations of each other are equal. -/
theorem sorted_strict_eq {α : Type _} (key : α → Int) :
    ∀ (l₁ l₂ : List α), l₁.Perm l₂ →
      List.Pairwise (fun a b => key a < key b) l₁ →
      List.Pairwise (fun a b => key a < key b) l₂ → l₁ = l₂ := by
  intro l₁
  induction l₁ with
  | nil =>
    intro l₂ hperm _ _
    have := hperm.length_eq
    cases l₂ with
    | nil => rfl
    | cons b t₂ => simp at this
  | cons a t ih =>
    intro l₂ hperm h1 h2
    cases l₂ with
    | nil =>
      have := hperm.length_eq
      simp at this
    | cons b t₂ =>
      rcases List.pairwise_cons.mp h1 with ⟨ha, h1t⟩
      rcases List.pairwise_cons.mp h2 with ⟨hb, h2t⟩
      have hab : a = b := by
        have hamem : a ∈ b :: t₂ := hperm.mem_iff.mp (List.mem_cons_self a t)
        rcases List.mem_cons.mp hamem with h | h
        · exact h
        · exfalso
          have h4 : key b < key a := hb a h
          have hbmem : b ∈ a :: t := hperm.mem_iff.mpr (List.mem_cons_self b t₂)
          rcases List.mem_cons.mp hbmem with h5 | h5
          · rw [h5] at h4; exact lt_irrefl _ h4
          · have h6 : key a < key b := ha b h5
            omega
      subst hab
      rw [ih t₂ hperm.cons_inv h1t h2t]

/-- With pairwise-distinct keys the modelled sort is invariant under any
permutation of its input. -/
theorem sortByIntKey_eq_of_perm {α : Type _} (key : α → Int) (l l' : List α)
    (hp : l.Perm l') (hnd : (l.map key).Nodup) :
    sortByIntKey key l = sortByIntKey key l' := by
  have hs1 := sortByIntKey_sorted key l
  have hs2 := sortByIntKey_sorted key l'
  have hp1 := sortByIntKey_perm key l
  have hp2 := sortByIntKey_perm key l'
  have hperm : (sortByIntKey key l).Perm (sortByIntKey key l') :=
    hp1.trans (hp.trans hp2.symm)
  have hnd1 : ((sortByIntKey key l).map key).Nodup :=
    ((hp1.map key).nodup_iff).mpr hnd
  have hnd2 : ((sortByIntKey key l').map key).Nodup := by
    have h' : ((sortByIntKey key l').map key).Perm (l.map key) :=
      (hp2.map key).trans ((hp.map key).symm)
    exact (h'.nodup_iff).mpr hnd
  exact sorted_strict_eq key _ _ hperm
    (pairwise_lt_of_le_nodup key _ hs1 hnd1)
    (pairwise_lt_of_le_nodup key _ hs2 hnd2)

/-! ## Claim C8 -/

/-- Claim C8: after `readLHExport`, the reconstructed graph is
deterministically ordered regardless of filesystem enumeration order: the
users list and the projects list are sorted ascending by ID, and within
each project the milestones are sorted ascending by ID and the tickets
ascending by ticket number — each list being a permutation of the decoded
input, with the per-project payloads otherwise untouched; and (the
determinism underlying this) the modelled sort maps any two permutations
of an input with distinct keys to the same output. -/
theorem readLHExport_sorted_and_deterministic :
    (∀ (users : List LHUser) (ps : List LHProject),
        List.Pairwise (fun a b => a.user.ID ≤ b.user.ID)
          (readLHExportAssemble users ps).users
      ∧ (readLHExportAssemble users ps).users.Perm users
      ∧ List.Pairwise (fun a b => a.project.ID ≤ b.project.ID)
          (readLHExportAssemble users ps).projects
      ∧ (∀ p, p ∈ (readLHExportAssemble users ps).projects →
            List.Pairwise (fun a b => a.ID ≤ b.ID) p.milestones
          ∧ List.Pairwise (fun a b => a.ticket.Number ≤ b.ticket.Number) p.tickets
          ∧ ∃ p₀, p₀ ∈ ps ∧ p.project = p₀.project
              ∧ p.milestones.Perm p₀.milestones
              ∧ p.tickets.Perm p₀.tickets
              ∧ p.memberships = p₀.memberships))
  ∧ (∀ (α : Type) (key : α → Int) (l l' : List α),
        l.Perm l' → (l.map key).Nodup →
        sortByIntKey key l = sortByIntKey key l') := by
  constructor
  · intro users ps
    refine ⟨?_, ?_, ?_, ?_⟩
    · exact sortByIntKey_sorted _ users
    · exact sortByIntKey_perm _ users
    · exact sortByIntKey_sorted _ _
    · intro p hp
      have hp' : p ∈ ps.map (fun q =>
          { q with
            milestones := sortByIntKey (fun m => m.ID) q.milestones,
            tickets := sortByIntKey (fun t => t.ticket.Number) q.tickets }) :=
        ((sortByIntKey_perm _ _).mem_iff).mp hp
      rcases List.mem_map.mp hp' with ⟨q, hq, heq⟩
      subst heq
      exact ⟨sortByIntKey_sorted _ _, sortByIntKey_sorted _ _,
             q, hq, rfl, sortByIntKey_perm _ _, sortByIntKey_perm _ _, rfl⟩
  · intro α key l l' hp hnd
    exact sortByIntKey_eq_of_perm key l l' hp hnd

/-- Witness for C8: the two enumeration orders of the users with IDs 2 and
1 sort to the same list. -/
theorem readLHExport_sorted_and_deterministic_witness :
    sortByIntKey (fun u : LHUser => u.user.ID) [demoLHUser2, demoLHUser1] =
      sortByIntKey (fun u : LHUser => u.user.ID) [demoLHUser1, demoLHUser2] :=
  readLHExport_sorted_and_deterministic.2 LHUser (fun u => u.user.ID)
    [demoLHUser2, demoLHUser1] [demoLHUser1, demoLHUser2]
    (List.Perm.swap demoLHUser1 demoLHUser2 []) (by decide)

end Lighthouse
